/-
  Verification of the typst bytecode-core spec against the source.

  Part 1 embeds `crates/typst-utils/src/pico.rs` (the global string
  interner) as explicit state passing: the `HashMap<&'static str, PicoStr>`
  becomes a function `String → Option PicoStr`, the `Vec<&'static str>`
  becomes a `List String`, a panic (`expect`/out-of-bounds indexing)
  becomes `Except.error`/`none`, and `u32` identities become `Nat` with the
  explicit bound `2 ^ 32` where `try_into::<u32>` can fail.

  Part 2 embeds `crates/typst/src/lang/opcodes.rs` (the instruction
  catalog and the macro-generated `Run for Opcode` dispatch).
-/
import Mathlib

namespace Typst

/-! ### Interner (pico.rs) -/

/-- An interned string: `pub struct PicoStr(u32)`.  The `u32` payload is
modelled as a `Nat`; identities are allocated below `2 ^ 32` (the
allocation path fails where `try_into::<u32>` would). -/
structure PicoStr where
  raw : Nat
deriving DecidableEq, Repr

/-- The interner state: `to_id: HashMap<&'static str, PicoStr>` (as a
function) and `from_id: Vec<&'static str>` (as a list). -/
structure Interner where
  to_id : String → Option PicoStr
  from_id : List String

/-- The initial interner: `Interner { to_id: HashMap::new(), from_id: Vec::new() }`. -/
def Interner.empty : Interner :=
  { to_id := fun _ => none, from_id := [] }

/-- The write-lock section shared by `new` and `static_` once the id fits:
`interner.to_id.insert(string, id)` followed by
`interner.from_id.push(string)`, with `id = Self(from_id.len())`. -/
def Interner.insert (st : Interner) (s : String) : Interner :=
  { to_id := fun t => if t = s then some ⟨st.from_id.length⟩ else st.to_id t,
    from_id := st.from_id ++ [s] }

/-- `PicoStr::new`: return the existing id on a hit; otherwise allocate
`from_id.len()` as the id (`expect("out of string ids")` if it does not
fit in a `u32`), insert into the map and push onto the vector.  These are
the sequential semantics of the Rust function (read-lock lookup, then
write-lock insert; the write path does not re-check the map, which only
matters under interleaving — see `threadStep` below). -/
def PicoStr.new (string : String) (st : Interner) : Except String (PicoStr × Interner) :=
  match st.to_id string with
  | some id => .ok (id, st)
  | none =>
    let num := st.from_id.length
    if num < 2 ^ 32 then
      .ok (⟨num⟩, st.insert string)
    else
      .error "out of string ids"

/-- `PicoStr::static_`: identical to `new` except that the `&'static str`
needs no leaking; the table operations are the same. -/
def PicoStr.static_ (string : String) (st : Interner) : Except String (PicoStr × Interner) :=
  match st.to_id string with
  | some id => .ok (id, st)
  | none =>
    let num := st.from_id.length
    if num < 2 ^ 32 then
      .ok (⟨num⟩, st.insert string)
    else
      .error "out of string ids"

/-- `PicoStr::resolve`: `from_id[self.0 as usize]`.  Rust's panicking
index becomes `Option`: `none` is the fail-fast out-of-bounds panic. -/
def PicoStr.resolve (id : PicoStr) (st : Interner) : Option String :=
  st.from_id[id.raw]?

/-- `Ord for PicoStr`: `self.resolve().cmp(other.resolve())`.  `none`
again marks the case where a `resolve` would panic. -/
def PicoStr.cmp (a b : PicoStr) (st : Interner) : Option Ordering :=
  match a.resolve st, b.resolve st with
  | some sa, some sb => some (compare sa sb)
  | _, _ => none

/-- Consistency of the two directions of the interner table: the map
sends `s` to id `i` exactly when slot `i` of the vector holds `s`.  This
holds of `Interner.empty` and is preserved by every sequential intern
operation. -/
def Interner.Valid (st : Interner) : Prop :=
  ∀ (s : String) (i : Nat), st.to_id s = some ⟨i⟩ ↔ st.from_id[i]? = some s

/-- A chain of further (successful) intern operations: `Steps st st'`
means `st'` arises from `st` by zero or more `PicoStr::new` /
`PicoStr::static_` calls. -/
inductive Interner.Steps : Interner → Interner → Prop where
  | refl (st : Interner) : Interner.Steps st st
  | new (s : String) (id : PicoStr) (st₁ st₂ st₃ : Interner) :
      Interner.Steps st₁ st₂ → PicoStr.new s st₂ = .ok (id, st₃) →
      Interner.Steps st₁ st₃
  | static_ (s : String) (id : PicoStr) (st₁ st₂ st₃ : Interner) :
      Interner.Steps st₁ st₂ → PicoStr.static_ s st₂ = .ok (id, st₃) →
      Interner.Steps st₁ st₃

/-! #### Interleaved execution of `PicoStr::new`

`PicoStr::new` holds the `RwLock` twice: a read guard for the lookup,
dropped before the write guard is taken for the insert.  Each guarded
section is atomic with respect to the shared table, but other threads may
run between the two sections.  `threadStep` performs one guarded section
of one thread; a schedule interleaves threads. -/

/-- One thread's progress through `PicoStr::new(s)`:
`ready` = about to do the read-lock lookup; `missed` = the lookup missed
and the thread is about to take the write lock; `done` = returned an id;
`failed` = panicked with "out of string ids". -/
inductive ThreadState where
  | ready (s : String)
  | missed (s : String)
  | done (id : PicoStr)
  | failed
deriving DecidableEq, Repr

/-- One atomic lock-holding section of `PicoStr::new`, exactly as in the
source: the read section only looks up `to_id`; the write section
allocates `from_id.len()` and inserts — it does **not** re-check `to_id`
after reacquiring the lock. -/
def threadStep (st : Interner) : ThreadState → Interner × ThreadState
  | .ready s =>
    match st.to_id s with
    | some id => (st, .done id)
    | none => (st, .missed s)
  | .missed s =>
    if st.from_id.length < 2 ^ 32 then
      (st.insert s, .done ⟨st.from_id.length⟩)
    else
      (st, .failed)
  | .done id => (st, .done id)
  | .failed => (st, .failed)

/-- Run a schedule: at each step, the named thread executes its next
atomic lock-holding section (indices out of range are skipped). -/
def runSched (st : Interner) (threads : List ThreadState) :
    List Nat → Interner × List ThreadState
  | [] => (st, threads)
  | i :: rest =>
    match threads[i]? with
    | none => runSched st threads rest
    | some t =>
      let (st', t') := threadStep st t
      runSched st' (threads.set i t') rest

/-! #### A full interner: `2 ^ 32` distinct strings

Used to exercise the id-exhaustion boundary.  Slot `i` holds the string
of `i + 1` letters `a`. -/

/-- The reverse table of the full interner: `2 ^ 32` distinct strings. -/
def bigFromId : List String :=
  (List.range (2 ^ 32)).map (fun i => String.mk (List.replicate (i + 1) 'a'))

/-- The forward table of the full interner, as a function. -/
def bigToId (s : String) : Option PicoStr :=
  if s.data ≠ [] ∧ s.data.length ≤ 2 ^ 32 ∧ s.data.all (fun c => c == 'a') then
    some ⟨s.data.length - 1⟩
  else
    none

/-- An interner holding `2 ^ 32` distinct strings: the id space is
exhausted, the next allocation would panic. -/
def bigInterner : Interner :=
  { to_id := bigToId, from_id := bigFromId }

/-! #### Small concrete interner states for witnesses -/

/-- The interner after interning the single (unicode) string `"é"`. -/
def sampleE : Interner :=
  Interner.empty.insert "é"

/-- The interner after interning the single string `"a"`. -/
def sampleA : Interner :=
  Interner.empty.insert "a"

/-- An interner whose raw id order (0 before 1) disagrees with the
lexicographic order of the strings (`"b"` after `"a"`). -/
def cmpSample : Interner :=
  { to_id := fun s => if s = "b" then some (⟨0⟩ : PicoStr)
             else if s = "a" then some (⟨1⟩ : PicoStr) else none,
    from_id := ["b", "a"] }

/-! ### Instruction catalog (opcodes.rs)

The operand types below come from `operands.rs`, which is not among the
sources; they are modelled from the spec's data model (§3): readable /
writable operands, access-path identities, jump targets, and pool
indices are small integers into side tables. -/

/-- Modelled from the spec: a readable operand is "a reference to a
constant or a slot holding a previously computed value". -/
inductive Readable where
  | const (id : Nat)
  | slot (id : Nat)
deriving DecidableEq, Repr

/-- Modelled from the spec: a writable operand is "a slot identity that
receives this instruction's result". -/
structure Writable where
  slot : Nat
deriving DecidableEq, Repr

/-- Modelled from the spec: identity of a resolved lvalue (access path). -/
structure AccessId where
  idx : Nat
deriving DecidableEq, Repr

/-- Modelled from the spec: pool index of a closure template. -/
structure ClosureId where
  idx : Nat
deriving DecidableEq, Repr

/-- Modelled from the spec: pool index of a label. -/
structure LabelId where
  idx : Nat
deriving DecidableEq, Repr

/-- Modelled from the spec: pool index of a module descriptor. -/
structure ModuleId where
  idx : Nat
deriving DecidableEq, Repr

/-- Modelled from the spec: pool index of a destructuring pattern. -/
structure PatternId where
  idx : Nat
deriving DecidableEq, Repr

/-- Modelled from the spec: pool index of a source-span record. -/
structure SpanId where
  idx : Nat
deriving DecidableEq, Repr

/-- Modelled from the spec: pool index of an interned string. -/
structure StringId where
  idx : Nat
deriving DecidableEq, Repr

/-- Modelled from the spec: a jump target, a "position within the
*current* scope, not the global program". -/
structure Pointer where
  pos : Nat
deriving DecidableEq, Repr

/-- Modelled from the spec: an opaque source-span record
(`typst_syntax::Span`, external to the sources). -/
structure Span where
  raw : Nat
deriving DecidableEq, Repr

/-- Rust's `NonZeroU16`, as a positive natural. -/
def NonZeroU16 : Type := {n : Nat // 0 < n}

/-- Rust's `NonZeroU32`, as a positive natural. -/
def NonZeroU32 : Type := {n : Nat // 0 < n}

instance : DecidableEq NonZeroU16 := fun a b => Subtype.instDecidableEq a b
instance : DecidableEq NonZeroU32 := fun a b => Subtype.instDecidableEq a b
instance : Repr NonZeroU16 := ⟨fun n _ => repr n.val⟩
instance : Repr NonZeroU32 := ⟨fun n _ => repr n.val⟩

/-! The packed operand record of each instruction, one structure per
catalog entry, fields in source order with the `out` output field (when
the entry declares `-> Output`) last, as generated by `opcode_struct!`.
`u32` scalars become `Nat`, `bool` becomes `Bool`. -/

structure Add where
  lhs : Readable
  rhs : Readable
  out : Writable
deriving DecidableEq, Repr

structure Sub where
  lhs : Readable
  rhs : Readable
  out : Writable
deriving DecidableEq, Repr

structure Mul where
  lhs : Readable
  rhs : Readable
  out : Writable
deriving DecidableEq, Repr

structure Div where
  lhs : Readable
  rhs : Readable
  out : Writable
deriving DecidableEq, Repr

structure Neg where
  value : Readable
  out : Writable
deriving DecidableEq, Repr

structure Pos where
  value : Readable
  out : Writable
deriving DecidableEq, Repr

structure Not where
  value : Readable
  out : Writable
deriving DecidableEq, Repr

structure Gt where
  lhs : Readable
  rhs : Readable
  out : Writable
deriving DecidableEq, Repr

structure Geq where
  lhs : Readable
  rhs : Readable
  out : Writable
deriving DecidableEq, Repr

structure Lt where
  lhs : Readable
  rhs : Readable
  out : Writable
deriving DecidableEq, Repr

structure Leq where
  lhs : Readable
  rhs : Readable
  out : Writable
deriving DecidableEq, Repr

structure Eq where
  lhs : Readable
  rhs : Readable
  out : Writable
deriving DecidableEq, Repr

structure Neq where
  lhs : Readable
  rhs : Readable
  out : Writable
deriving DecidableEq, Repr

structure In where
  lhs : Readable
  rhs : Readable
  out : Writable
deriving DecidableEq, Repr

structure NotIn where
  lhs : Readable
  rhs : Readable
  out : Writable
deriving DecidableEq, Repr

structure And where
  lhs : Readable
  rhs : Readable
  out : Writable
deriving DecidableEq, Repr

structure Or where
  lhs : Readable
  rhs : Readable
  out : Writable
deriving DecidableEq, Repr

structure CopyIsr where
  value : Readable
  out : Writable
deriving DecidableEq, Repr

structure ReadAccess where
  access : AccessId
  out : Writable
deriving DecidableEq, Repr

structure None where
  out : Writable
deriving DecidableEq, Repr

structure Auto where
  out : Writable
deriving DecidableEq, Repr

structure Assign where
  value : Readable
  out : AccessId
deriving DecidableEq, Repr

structure AddAssign where
  value : Readable
  lhs_span : SpanId
  out : AccessId
deriving DecidableEq, Repr

structure SubAssign where
  value : Readable
  lhs_span : SpanId
  out : AccessId
deriving DecidableEq, Repr

structure MulAssign where
  value : Readable
  lhs_span : SpanId
  out : AccessId
deriving DecidableEq, Repr

structure DivAssign where
  value : Readable
  lhs_span : SpanId
  out : AccessId
deriving DecidableEq, Repr

structure Destructure where
  value : Readable
  out : PatternId
deriving DecidableEq, Repr

structure Set where
  target : Readable
  args : Readable
deriving DecidableEq, Repr

structure Show where
  selector : Option Readable
  transform : Readable
  selector_span : SpanId
deriving DecidableEq, Repr

structure ShowSet where
  selector : Option Readable
  target : Readable
  args : Readable
  selector_span : SpanId
deriving DecidableEq, Repr

structure Contextual where
  closure : Readable
  out : Writable
deriving DecidableEq, Repr

structure InstantiateModule where
  path : Readable
  module : ModuleId
  out : Writable
deriving DecidableEq, Repr

structure Include where
  path : Readable
  out : Writable
deriving DecidableEq, Repr

structure Instantiate where
  closure : ClosureId
  out : Writable
deriving DecidableEq, Repr

structure Call where
  closure : AccessId
  args : Readable
  math : Bool
  trailing_comma : Bool
  callee_span : SpanId
  out : Writable
deriving DecidableEq, Repr

structure Field where
  access : AccessId
  out : Writable
deriving DecidableEq, Repr

structure While where
  len : Nat
  content : Bool
  out : Writable
deriving DecidableEq, Repr

structure Iter where
  len : Nat
  iterable : Readable
  content : Bool
  out : Writable
deriving DecidableEq, Repr

structure Next where
  out : Writable
deriving DecidableEq, Repr

structure Continue where
deriving DecidableEq, Repr

structure Break where
deriving DecidableEq, Repr

structure Return where
deriving DecidableEq, Repr

structure ReturnVal where
  value : Readable
deriving DecidableEq, Repr

structure AllocArray where
  capacity : Nat
  out : Writable
deriving DecidableEq, Repr

structure Push where
  value : Readable
  out : Writable
deriving DecidableEq, Repr

structure AllocDict where
  capacity : Nat
  out : Writable
deriving DecidableEq, Repr

structure Insert where
  key : Readable
  value : Readable
  out : Writable
deriving DecidableEq, Repr

structure AllocArgs where
  capacity : Nat
  out : Writable
deriving DecidableEq, Repr

structure PushArg where
  value : Readable
  value_span : SpanId
  out : Writable
deriving DecidableEq, Repr

structure InsertArg where
  key : StringId
  value : Readable
  value_span : SpanId
  out : Writable
deriving DecidableEq, Repr

structure SpreadArg where
  value : Readable
  value_span : SpanId
  out : Writable
deriving DecidableEq, Repr

structure Spread where
  value : Readable
  out : Writable
deriving DecidableEq, Repr

structure Enter where
  len : Nat
  content : Bool
  out : Writable
deriving DecidableEq, Repr

structure PointerMarker where
  marker : Pointer
deriving DecidableEq, Repr

structure Jump where
  instruction : Pointer
deriving DecidableEq, Repr

structure JumpTop where
deriving DecidableEq, Repr

structure JumpIf where
  condition : Readable
  instruction : Pointer
deriving DecidableEq, Repr

structure JumpIfNot where
  condition : Readable
  instruction : Pointer
deriving DecidableEq, Repr

structure Select where
  condition : Readable
  true_ : Readable
  false_ : Readable
  out : Writable
deriving DecidableEq, Repr

structure BeginIter where
deriving DecidableEq, Repr

structure Delimited where
  left : Readable
  body : Readable
  right : Readable
  out : Writable
deriving DecidableEq, Repr

structure Attach where
  base : Readable
  top : Option Readable
  bottom : Option Readable
  out : Writable
deriving DecidableEq, Repr

structure Frac where
  numerator : Readable
  denominator : Readable
  out : Writable
deriving DecidableEq, Repr

structure Root where
  degree : Option Readable
  radicand : Readable
  out : Writable
deriving DecidableEq, Repr

structure Ref where
  label : LabelId
  supplement : Readable
  out : Writable
deriving DecidableEq, Repr

structure Strong where
  value : Readable
  out : Writable
deriving DecidableEq, Repr

structure Emph where
  value : Readable
  out : Writable
deriving DecidableEq, Repr

structure Heading where
  value : Readable
  level : NonZeroU16
  out : Writable
deriving DecidableEq, Repr

structure ListItem where
  value : Readable
  out : Writable
deriving DecidableEq, Repr

structure EnumItem where
  value : Readable
  number : Option NonZeroU32
  out : Writable
deriving DecidableEq, Repr

structure TermItem where
  term : Readable
  description : Readable
  out : Writable
deriving DecidableEq, Repr

structure Equation where
  value : Readable
  block : Bool
  out : Writable
deriving DecidableEq, Repr

/-- The dispatch enum generated by `opcodes!`: `#[repr(u8)]`, the first
variant is `Flow = 0`, followed by one variant per catalog entry in
source order, each carrying its operand record. -/
inductive Opcode where
  | Flow
  | Add (op : Add)
  | Sub (op : Sub)
  | Mul (op : Mul)
  | Div (op : Div)
  | Neg (op : Neg)
  | Pos (op : Pos)
  | Not (op : Not)
  | Gt (op : Gt)
  | Geq (op : Geq)
  | Lt (op : Lt)
  | Leq (op : Leq)
  | Eq (op : Eq)
  | Neq (op : Neq)
  | In (op : In)
  | NotIn (op : NotIn)
  | And (op : And)
  | Or (op : Or)
  | CopyIsr (op : CopyIsr)
  | ReadAccess (op : ReadAccess)
  | None (op : None)
  | Auto (op : Auto)
  | Assign (op : Assign)
  | AddAssign (op : AddAssign)
  | SubAssign (op : SubAssign)
  | MulAssign (op : MulAssign)
  | DivAssign (op : DivAssign)
  | Destructure (op : Destructure)
  | Set (op : Set)
  | Show (op : Show)
  | ShowSet (op : ShowSet)
  | Contextual (op : Contextual)
  | InstantiateModule (op : InstantiateModule)
  | Include (op : Include)
  | Instantiate (op : Instantiate)
  | Call (op : Call)
  | Field (op : Field)
  | While (op : While)
  | Iter (op : Iter)
  | Next (op : Next)
  | Continue (op : Continue)
  | Break (op : Break)
  | Return (op : Return)
  | ReturnVal (op : ReturnVal)
  | AllocArray (op : AllocArray)
  | Push (op : Push)
  | AllocDict (op : AllocDict)
  | Insert (op : Insert)
  | AllocArgs (op : AllocArgs)
  | PushArg (op : PushArg)
  | InsertArg (op : InsertArg)
  | SpreadArg (op : SpreadArg)
  | Spread (op : Spread)
  | Enter (op : Enter)
  | PointerMarker (op : PointerMarker)
  | Jump (op : Jump)
  | JumpTop (op : JumpTop)
  | JumpIf (op : JumpIf)
  | JumpIfNot (op : JumpIfNot)
  | Select (op : Select)
  | BeginIter (op : BeginIter)
  | Delimited (op : Delimited)
  | Attach (op : Attach)
  | Frac (op : Frac)
  | Root (op : Root)
  | Ref (op : Ref)
  | Strong (op : Strong)
  | Emph (op : Emph)
  | Heading (op : Heading)
  | ListItem (op : ListItem)
  | EnumItem (op : EnumItem)
  | TermItem (op : TermItem)
  | Equation (op : Equation)

/-- The `#[repr(u8)]` discriminant of each `Opcode` variant: `Flow = 0`,
then the catalog entries in source order. -/
def Opcode.discriminant : Opcode → Nat
  | .Flow => 0
  | .Add _ => 1
  | .Sub _ => 2
  | .Mul _ => 3
  | .Div _ => 4
  | .Neg _ => 5
  | .Pos _ => 6
  | .Not _ => 7
  | .Gt _ => 8
  | .Geq _ => 9
  | .Lt _ => 10
  | .Leq _ => 11
  | .Eq _ => 12
  | .Neq _ => 13
  | .In _ => 14
  | .NotIn _ => 15
  | .And _ => 16
  | .Or _ => 17
  | .CopyIsr _ => 18
  | .ReadAccess _ => 19
  | .None _ => 20
  | .Auto _ => 21
  | .Assign _ => 22
  | .AddAssign _ => 23
  | .SubAssign _ => 24
  | .MulAssign _ => 25
  | .DivAssign _ => 26
  | .Destructure _ => 27
  | .Set _ => 28
  | .Show _ => 29
  | .ShowSet _ => 30
  | .Contextual _ => 31
  | .InstantiateModule _ => 32
  | .Include _ => 33
  | .Instantiate _ => 34
  | .Call _ => 35
  | .Field _ => 36
  | .While _ => 37
  | .Iter _ => 38
  | .Next _ => 39
  | .Continue _ => 40
  | .Break _ => 41
  | .Return _ => 42
  | .ReturnVal _ => 43
  | .AllocArray _ => 44
  | .Push _ => 45
  | .AllocDict _ => 46
  | .Insert _ => 47
  | .AllocArgs _ => 48
  | .PushArg _ => 49
  | .InsertArg _ => 50
  | .SpreadArg _ => 51
  | .Spread _ => 52
  | .Enter _ => 53
  | .PointerMarker _ => 54
  | .Jump _ => 55
  | .JumpTop _ => 56
  | .JumpIf _ => 57
  | .JumpIfNot _ => 58
  | .Select _ => 59
  | .BeginIter _ => 60
  | .Delimited _ => 61
  | .Attach _ => 62
  | .Frac _ => 63
  | .Root _ => 64
  | .Ref _ => 65
  | .Strong _ => 66
  | .Emph _ => 67
  | .Heading _ => 68
  | .ListItem _ => 69
  | .EnumItem _ => 70
  | .TermItem _ => 71
  | .Equation _ => 72

/-- The `SpanId` operand fields of an instruction, read off the operand
records above: the four compound assignments carry `lhs_span`,
`Show`/`ShowSet` carry `selector_span`, `Call` carries `callee_span`,
and the three argument insertions carry `value_span`; no other entry —
in particular not `Destructure` — has a `SpanId` operand. -/
def Opcode.spanOperands : Opcode → List SpanId
  | .AddAssign op => [op.lhs_span]
  | .SubAssign op => [op.lhs_span]
  | .MulAssign op => [op.lhs_span]
  | .DivAssign op => [op.lhs_span]
  | .Show op => [op.selector_span]
  | .ShowSet op => [op.selector_span]
  | .Call op => [op.callee_span]
  | .PushArg op => [op.value_span]
  | .InsertArg op => [op.value_span]
  | .SpreadArg op => [op.value_span]
  | _ => []

/-! ### Execution dispatch (`Run for Opcode`)

`Vm`, `Engine`, `Value` and the per-instruction `Run` impls live outside
the sources (`lang/interpreter`); they are modelled from the spec:
the VM state carries an instruction pointer and the slot file (§4.3),
`vm.next()` is "advance the instruction pointer" (§4.3, one step —
dispatch then works with "the instruction at the new position"). -/

/-- Modelled from the spec: an opaque host value (`foundations::Value`). -/
structure Value where
  raw : Nat
deriving DecidableEq, Repr

/-- Modelled from the spec: the shared evaluation context
(`engine::Engine`), opaque here. -/
structure Engine where
  raw : Nat
deriving DecidableEq, Repr

/-- Modelled from the spec: an opaque user-facing diagnostic, the error
side of `SourceResult`. -/
structure SourceDiag where
  raw : Nat
deriving DecidableEq, Repr

/-- Modelled from the spec: the VM state visible at dispatch — the
instruction pointer within the current scope plus the slot file. -/
structure Vm where
  instruction_pointer : Nat
  slots : List Value
deriving DecidableEq, Repr

/-- Modelled from the spec: `vm.next()` advances the instruction pointer
by one step and touches nothing else. -/
def Vm.next (vm : Vm) : Vm :=
  { vm with instruction_pointer := vm.instruction_pointer + 1 }

/-- The outcome of one dispatch step: the `SourceResult<()>` return value
together with the final state of the `&mut` arguments (`vm`, `engine`,
and the optional iterator, modelled as its remaining elements). -/
abbrev StepResult : Type :=
  Except SourceDiag Unit × Vm × Engine × Option (List Value)

/-- A family of semantic handlers, one per catalog instruction: the
`Run` impls of the operand records, which live outside the sources.  The
dispatch below forwards the operand record together with the instruction
and span slices, the current span, the VM, the engine, and the iterator. -/
abbrev Handler : Type :=
  Opcode → List Opcode → List Span → Span → Vm → Engine →
    Option (List Value) → StepResult

/-- The macro-generated `Run for Opcode` dispatch: call `vm.next()`,
read the new instruction pointer `isr`, then either finish (`Flow`) or
forward to the operand record's handler with `&instructions[isr..]` and
`&spans[isr..]` (modelled by `List.drop`; Rust would panic for
`isr > len`, so the theorems carry in-bounds hypotheses) and the other
arguments unchanged.  The macro emits one arm per catalog variant, each
forwarding identically; the catch-all arm stands for all of them. -/
def Opcode.runWith (handler : Handler) (self : Opcode) (instructions : List Opcode)
    (spans : List Span) (span : Span) (vm : Vm) (engine : Engine)
    (iterator : Option (List Value)) : StepResult :=
  let vm := vm.next
  let isr := vm.instruction_pointer
  match self with
  | .Flow => (.ok (), vm, engine, iterator)
  | op => handler op (instructions.drop isr) (spans.drop isr) span vm engine iterator

/-- A handler that finishes every instruction without any effect; used
only to instantiate theorems at concrete inputs. -/
def trivialHandler : Handler :=
  fun _ _ _ _ vm engine iterator => (.ok (), vm, engine, iterator)

/-! ## Theorems -/

/-! ### Interner lemmas -/

theorem Interner.empty_valid : Interner.empty.Valid := by
  intro s i
  simp [Interner.empty]

/-- `static_` and `new` have the same sequential table semantics (the only
difference in the source is that `new` leaks a copy of the string first). -/
theorem PicoStr.static_eq_new : @PicoStr.static_ = @PicoStr.new :=
  rfl

/-- Case analysis of a successful `PicoStr::new`: either a hit that leaves
the state unchanged, or a miss that returns the fresh id `from_id.len()`
and appends. -/
theorem PicoStr.new_cases {s : String} {st st' : Interner} {id : PicoStr}
    (h : PicoStr.new s st = .ok (id, st')) :
    (st.to_id s = some id ∧ st' = st) ∨
    (st.to_id s = none ∧ st.from_id.length < 2 ^ 32 ∧
      id = ⟨st.from_id.length⟩ ∧ st' = st.insert s) := by
  unfold PicoStr.new at h
  cases hto : st.to_id s with
  | some j =>
    rw [hto] at h
    simp only [Except.ok.injEq, Prod.mk.injEq] at h
    exact Or.inl ⟨by rw [h.1], h.2.symm⟩
  | none =>
    rw [hto] at h
    by_cases hlt : st.from_id.length < 2 ^ 32
    · rw [if_pos hlt] at h
      simp only [Except.ok.injEq, Prod.mk.injEq] at h
      exact Or.inr ⟨rfl, hlt, h.1.symm, h.2.symm⟩
    · rw [if_neg hlt] at h
      exact absurd h (by simp)

/-- The fresh entry of an insert. -/
theorem Interner.insert_to_id_self (st : Interner) (s : String) :
    (st.insert s).to_id s = some ⟨st.from_id.length⟩ := by
  simp [Interner.insert]

/-- Inserting a missing string preserves the two-directional consistency
invariant. -/
theorem Interner.insert_valid {st : Interner} (hv : st.Valid) {s : String}
    (hmiss : st.to_id s = none) : (st.insert s).Valid := by
  intro t i
  simp only [Interner.insert]
  constructor
  · intro h
    by_cases hts : t = s
    · subst hts
      rw [if_pos rfl] at h
      have hlen : st.from_id.length = i := congrArg PicoStr.raw (Option.some.inj h)
      subst hlen
      exact List.getElem?_concat_length _ _
    · rw [if_neg hts] at h
      have hfi := (hv t i).mp h
      have hlt : i < st.from_id.length := (List.getElem?_eq_some.mp hfi).1
      rw [List.getElem?_append_left hlt]
      exact hfi
  · intro h
    rcases Nat.lt_or_ge i st.from_id.length with hlt | hge
    · rw [List.getElem?_append_left hlt] at h
      have hold := (hv t i).mpr h
      have hts : t ≠ s := by
        intro he
        rw [he, hmiss] at hold
        exact Option.noConfusion hold
      rw [if_neg hts]
      exact hold
    · rw [List.getElem?_append_right hge] at h
      have hzero : i - st.from_id.length = 0 := by
        by_contra hne
        rcases Nat.exists_eq_succ_of_ne_zero hne with ⟨k, hk⟩
        rw [hk] at h
        simp at h
      rw [hzero] at h
      have hst : s = t := by simpa using h
      have hi : i = st.from_id.length := by omega
      subst hi
      subst hst
      rw [if_pos rfl]

/-- A successful `new` preserves validity. -/
theorem PicoStr.new_valid {s : String} {st st' : Interner} {id : PicoStr}
    (hv : st.Valid) (h : PicoStr.new s st = .ok (id, st')) : st'.Valid := by
  rcases PicoStr.new_cases h with ⟨_, rfl⟩ | ⟨hmiss, _, _, rfl⟩
  · exact hv
  · exact Interner.insert_valid hv hmiss

/-- After a successful `new`, the interned string maps to the returned
identity. -/
theorem PicoStr.new_to_id_self {s : String} {st st' : Interner} {id : PicoStr}
    (h : PicoStr.new s st = .ok (id, st')) : st'.to_id s = some id := by
  rcases PicoStr.new_cases h with ⟨hhit, rfl⟩ | ⟨_, _, rfl, rfl⟩
  · exact hhit
  · exact Interner.insert_to_id_self st s

/-- A successful `new` never changes an already assigned identity. -/
theorem PicoStr.new_mono {s : String} {st st' : Interner} {id : PicoStr}
    (h : PicoStr.new s st = .ok (id, st')) :
    ∀ (t : String) (j : PicoStr), st.to_id t = some j → st'.to_id t = some j := by
  intro t j ht
  rcases PicoStr.new_cases h with ⟨_, rfl⟩ | ⟨hmiss, _, _, rfl⟩
  · exact ht
  · have hts : t ≠ s := by
      intro he
      rw [he, hmiss] at ht
      exact Option.noConfusion ht
    simpa [Interner.insert, if_neg hts] using ht

/-- Assigned identities always resolve, to exactly their string. -/
theorem Interner.resolve_of_to_id {st : Interner} (hv : st.Valid) {s : String}
    {id : PicoStr} (h : st.to_id s = some id) : id.resolve st = some s := by
  have h' : st.to_id s = some ⟨id.raw⟩ := h
  exact (hv s id.raw).mp h'

/-- Any chain of further intern operations preserves validity and never
changes an already assigned identity. -/
theorem Interner.Steps.valid_mono {st₁ st₂ : Interner} (hs : Interner.Steps st₁ st₂)
    (hv : st₁.Valid) :
    st₂.Valid ∧ ∀ (t : String) (j : PicoStr), st₁.to_id t = some j → st₂.to_id t = some j := by
  induction hs with
  | refl st => exact ⟨hv, fun _ _ h => h⟩
  | new s id sa sb sc hsteps hok ih =>
    obtain ⟨hvb, hmono⟩ := ih hv
    exact ⟨PicoStr.new_valid hvb hok,
      fun t j ht => PicoStr.new_mono hok t j (hmono t j ht)⟩
  | static_ s id sa sb sc hsteps hok ih =>
    rw [PicoStr.static_eq_new] at hok
    obtain ⟨hvb, hmono⟩ := ih hv
    exact ⟨PicoStr.new_valid hvb hok,
      fun t j ht => PicoStr.new_mono hok t j (hmono t j ht)⟩

/-! ### Claims C1, C2, C4, C5, C6 -/

/-- C1: Interning is idempotent and round-trips: from any consistent
interner state, if `PicoStr::new s` returns identity `id` leaving state
`st'`, then calling `PicoStr::new s` again returns the same identity
(and leaves the state unchanged), and `resolve` on the returned identity
yields a string equal to `s`.  The statement quantifies over every
`String`, so it covers the empty string and arbitrary unicode. -/
theorem C1_intern_idempotent_roundtrip (s : String) (st st' : Interner) (id : PicoStr)
    (hv : st.Valid) (h : PicoStr.new s st = .ok (id, st')) :
    PicoStr.new s st' = .ok (id, st') ∧ id.resolve st' = some s := by
  have hself : st'.to_id s = some id := PicoStr.new_to_id_self h
  have hv' : st'.Valid := PicoStr.new_valid hv h
  refine ⟨?_, Interner.resolve_of_to_id hv' hself⟩
  unfold PicoStr.new
  rw [hself]

/-- Witness for C1 at the concrete unicode string `"é"` interned into the
empty interner. -/
theorem C1_intern_idempotent_roundtrip_witness :
    PicoStr.new "é" sampleE = .ok (⟨0⟩, sampleE) ∧
    PicoStr.resolve ⟨0⟩ sampleE = some "é" :=
  C1_intern_idempotent_roundtrip "é" Interner.empty sampleE ⟨0⟩
    Interner.empty_valid rfl

/-- C2: every successful intern operation (`PicoStr::new` or
`PicoStr::static_`) preserves the interner invariant: the resulting
state is again consistent, every previously assigned identity is
unchanged, the reverse table only grows by appending (either nothing, on
a hit, or exactly the new string), the string-to-identity map stays
injective, and every assigned identity resolves. -/
theorem C2_intern_preserves_invariant (s : String) (st st' : Interner) (id : PicoStr)
    (hv : st.Valid)
    (h : PicoStr.new s st = .ok (id, st') ∨ PicoStr.static_ s st = .ok (id, st')) :
    st'.Valid ∧
    (∀ (t : String) (j : PicoStr), st.to_id t = some j → st'.to_id t = some j) ∧
    (st'.from_id = st.from_id ∨ st'.from_id = st.from_id ++ [s]) ∧
    (∀ (t₁ t₂ : String) (j : PicoStr),
      st'.to_id t₁ = some j → st'.to_id t₂ = some j → t₁ = t₂) ∧
    (∀ (t : String) (j : PicoStr), st'.to_id t = some j →
      (j.resolve st').isSome = true) := by
  have hok : PicoStr.new s st = .ok (id, st') := by
    rcases h with h | h
    · exact h
    · rw [PicoStr.static_eq_new] at h
      exact h
  have hv' : st'.Valid := PicoStr.new_valid hv hok
  refine ⟨hv', PicoStr.new_mono hok, ?_, ?_, ?_⟩
  · rcases PicoStr.new_cases hok with ⟨_, rfl⟩ | ⟨_, _, _, rfl⟩
    · exact Or.inl rfl
    · exact Or.inr rfl
  · intro t₁ t₂ j h₁ h₂
    have r₁ := Interner.resolve_of_to_id hv' h₁
    have r₂ := Interner.resolve_of_to_id hv' h₂
    rw [r₁] at r₂
    exact Option.some.inj r₂
  · intro t j hj
    rw [Interner.resolve_of_to_id hv' hj]
    rfl

/-- Witness for C2: interning `"a"` into the empty interner yields a
consistent state and appends exactly one entry. -/
theorem C2_intern_preserves_invariant_witness :
    sampleA.Valid ∧
    (sampleA.from_id = Interner.empty.from_id ∨
      sampleA.from_id = Interner.empty.from_id ++ ["a"]) :=
  have h := C2_intern_preserves_invariant "a" Interner.empty sampleA ⟨0⟩
    Interner.empty_valid (Or.inl rfl)
  ⟨h.1, h.2.2.1⟩

/-- C4: dynamically and statically interned strings with equal text get
the same identity, in either order of first registration: if
`PicoStr::new s` returned `id`, a later `PicoStr::static_ s` returns the
same `id` (leaving the state unchanged), and symmetrically with the two
operations swapped — both go through the same table. -/
theorem C4_static_and_dynamic_agree (s : String) (st st' : Interner) (id : PicoStr) :
    (PicoStr.new s st = .ok (id, st') → PicoStr.static_ s st' = .ok (id, st')) ∧
    (PicoStr.static_ s st = .ok (id, st') → PicoStr.new s st' = .ok (id, st')) := by
  rw [PicoStr.static_eq_new]
  constructor <;>
    · intro h
      have hself : st'.to_id s = some id := PicoStr.new_to_id_self h
      unfold PicoStr.new
      rw [hself]

/-- Witness for C4: `"a"` first interned dynamically, then statically,
and the other way around, both times with identity `0`. -/
theorem C4_static_and_dynamic_agree_witness :
    PicoStr.static_ "a" sampleA = .ok (⟨0⟩, sampleA) ∧
    PicoStr.new "a" sampleA = .ok (⟨0⟩, sampleA) :=
  ⟨(C4_static_and_dynamic_agree "a" Interner.empty sampleA ⟨0⟩).1 rfl,
   (C4_static_and_dynamic_agree "a" Interner.empty sampleA ⟨0⟩).2 rfl⟩

/-- C5: `Ord for PicoStr` compares the resolved strings: whenever the two
identities resolve, their comparison is exactly the string comparison of
the resolved strings — and it therefore depends only on those strings,
never on the raw integer identities. -/
theorem C5_ord_compares_strings (st : Interner) (a b : PicoStr) (sa sb : String)
    (ha : a.resolve st = some sa) (hb : b.resolve st = some sb) :
    PicoStr.cmp a b st = some (compare sa sb) ∧
    (∀ a' b' : PicoStr, a'.resolve st = some sa → b'.resolve st = some sb →
      PicoStr.cmp a' b' st = PicoStr.cmp a b st) := by
  constructor
  · simp only [PicoStr.cmp, ha, hb]
  · intro a' b' ha' hb'
    simp only [PicoStr.cmp, ha, hb, ha', hb']

/-- Witness for C5 at a state where the raw id order (`0 < 1`) disagrees
with the string order: id `0` resolves to `"b"`, id `1` to `"a"`, and the
comparison follows the strings (`gt`), not the raw integers. -/
theorem C5_ord_compares_strings_witness :
    PicoStr.cmp ⟨0⟩ ⟨1⟩ cmpSample = some (compare "b" "a") ∧
    compare "b" "a" = Ordering.gt ∧ (0 : Nat) < 1 :=
  ⟨(C5_ord_compares_strings cmpSample ⟨0⟩ ⟨1⟩ "b" "a" rfl rfl).1,
   by decide, by decide⟩

/-- C6: `resolve` is total for every identity handed out by an intern
operation — after any further chain of intern operations it still
returns exactly the interned string — and fails fast (out-of-bounds,
i.e. `none`) on every identity at or beyond the number of interned
strings. -/
theorem C6_resolve_total_fail_fast (s : String) (st₀ st₁ st : Interner) (id : PicoStr)
    (hv : st₀.Valid)
    (hintern : PicoStr.new s st₀ = .ok (id, st₁) ∨ PicoStr.static_ s st₀ = .ok (id, st₁))
    (hsteps : Interner.Steps st₁ st) :
    id.resolve st = some s ∧
    ∀ bad : PicoStr, st.from_id.length ≤ bad.raw → bad.resolve st = none := by
  have hok : PicoStr.new s st₀ = .ok (id, st₁) := by
    rcases hintern with h | h
    · exact h
    · rw [PicoStr.static_eq_new] at h
      exact h
  have hv₁ : st₁.Valid := PicoStr.new_valid hv hok
  obtain ⟨hvst, hmono⟩ := hsteps.valid_mono hv₁
  have hself : st.to_id s = some id := hmono s id (PicoStr.new_to_id_self hok)
  refine ⟨Interner.resolve_of_to_id hvst hself, ?_⟩
  intro bad hge
  exact List.getElem?_len_le hge

/-- Witness for C6: identity `0` returned for `"a"` resolves to `"a"`,
while the never-issued identity `5` resolves to an out-of-bounds
failure. -/
theorem C6_resolve_total_fail_fast_witness :
    PicoStr.resolve ⟨0⟩ sampleA = some "a" ∧ PicoStr.resolve ⟨5⟩ sampleA = none :=
  have h := C6_resolve_total_fail_fast "a" Interner.empty sampleA sampleA ⟨0⟩
    Interner.empty_valid (Or.inl rfl) (.refl sampleA)
  ⟨h.1, h.2 ⟨5⟩ (by decide)⟩

/-! ### Claim C3: concurrent interning -/

/-- C3: the claimed concurrency safety fails on the source.  Two threads
both call `PicoStr::new("a")` on the empty interner; the schedule lets
both pass the read-lock lookup (both miss) before either takes the write
lock.  Because the write path never re-checks `to_id` after acquiring
the write lock, both threads insert: the single string `"a"` is assigned
the two distinct identities `0` and `1` (both of which resolve to
`"a"`), the reverse table holds `"a"` twice, and the final state violates
the string↔identity consistency invariant — not a bijection. -/
theorem C3_concurrent_intern_two_identities :
    (runSched Interner.empty [.ready "a", .ready "a"] [0, 1, 0, 1]).2
      = [.done ⟨0⟩, .done ⟨1⟩] ∧
    (runSched Interner.empty [.ready "a", .ready "a"] [0, 1, 0, 1]).1.from_id
      = ["a", "a"] ∧
    (runSched Interner.empty [.ready "a", .ready "a"] [0, 1, 0, 1]).1.to_id "a"
      = some ⟨1⟩ ∧
    (⟨0⟩ : PicoStr) ≠ (⟨1⟩ : PicoStr) ∧
    PicoStr.resolve ⟨0⟩ (runSched Interner.empty [.ready "a", .ready "a"] [0, 1, 0, 1]).1
      = some "a" ∧
    PicoStr.resolve ⟨1⟩ (runSched Interner.empty [.ready "a", .ready "a"] [0, 1, 0, 1]).1
      = some "a" ∧
    ¬ (runSched Interner.empty [.ready "a", .ready "a"] [0, 1, 0, 1]).1.Valid := by
  refine ⟨by decide, by decide, by decide, by decide, by decide, by decide, ?_⟩
  intro h
  have h₀ : (runSched Interner.empty [.ready "a", .ready "a"] [0, 1, 0, 1]).1.to_id "a"
      = some ⟨0⟩ :=
    (h "a" 0).mpr (by decide)
  have h₁ : (runSched Interner.empty [.ready "a", .ready "a"] [0, 1, 0, 1]).1.to_id "a"
      = some ⟨1⟩ := by decide
  rw [h₀] at h₁
  simp at h₁

/-! ### Claim C7: id-space exhaustion -/

theorem bigFromId_length : bigFromId.length = 2 ^ 32 := by
  simp [bigFromId]

theorem bigFromId_getElem (i : Nat) :
    bigFromId[i]? =
      if i < 2 ^ 32 then some (String.mk (List.replicate (i + 1) 'a')) else none := by
  unfold bigFromId
  rw [List.getElem?_map]
  by_cases h : i < 2 ^ 32
  · rw [List.getElem?_range h, if_pos h]
    rfl
  · rw [List.getElem?_len_le (by simpa using Nat.le_of_not_lt h), if_neg h]
    rfl

/-- The full interner is a consistent state: its two directions agree on
all `2 ^ 32` entries. -/
theorem bigInterner_valid : bigInterner.Valid := by
  intro s i
  simp only [bigInterner]
  rw [bigFromId_getElem]
  unfold bigToId
  constructor
  · intro h
    split at h
    case isTrue hcond =>
      obtain ⟨hne, hle, hall⟩ := hcond
      have hi : s.data.length - 1 = i := congrArg PicoStr.raw (Option.some.inj h)
      have hpos : 0 < s.data.length := List.length_pos.mpr hne
      have hilt : i < 2 ^ 32 := by omega
      rw [if_pos hilt]
      have hdata : s.data = List.replicate (i + 1) 'a' := by
        rw [List.eq_replicate_iff]
        exact ⟨by omega, fun b hb => by simpa using List.all_eq_true.mp hall b hb⟩
      exact congrArg some (String.ext hdata.symm)
    case isFalse hcond => exact Option.noConfusion h
  · intro h
    split at h
    case isTrue hilt =>
      have hs : String.mk (List.replicate (i + 1) 'a') = s := Option.some.inj h
      have hdata : s.data = List.replicate (i + 1) 'a' := by rw [← hs]
      have h1 : s.data ≠ [] := by
        rw [hdata]
        simp
      have h2 : s.data.length = i + 1 := by
        rw [hdata]
        simp
      have h3 : s.data.all (fun c => c == 'a') := by
        rw [hdata]
        simp [List.all_eq_true, List.eq_of_mem_replicate]
      rw [if_pos ⟨h1, by omega, h3⟩, h2]
      norm_num
    case isFalse hilt => exact Option.noConfusion h

/-- C7 (amended): an intern call that must allocate (the string is not
yet interned) aborts fatally with `"out of string ids"` exactly when the
number of already-interned strings has exhausted the `u32` identity
range; any call made while the count is within range returns normally —
and so does a call for an *already interned* string even at exhaustion
(see the counterexample). -/
theorem C7_id_exhaustion_fatal :
    (∀ (st : Interner) (s : String), st.to_id s = none →
      2 ^ 32 ≤ st.from_id.length →
      PicoStr.new s st = .error "out of string ids" ∧
      PicoStr.static_ s st = .error "out of string ids") ∧
    (∀ (st : Interner) (s : String), st.from_id.length < 2 ^ 32 →
      (∃ p, PicoStr.new s st = .ok p) ∧ (∃ p, PicoStr.static_ s st = .ok p)) := by
  have hcase : ∀ (st : Interner) (s : String),
      (st.to_id s = none → 2 ^ 32 ≤ st.from_id.length →
        PicoStr.new s st = .error "out of string ids") ∧
      (st.from_id.length < 2 ^ 32 → ∃ p, PicoStr.new s st = .ok p) := by
    intro st s
    constructor
    · intro hmiss hge
      unfold PicoStr.new
      rw [hmiss, if_neg (Nat.not_lt.mpr hge)]
    · intro hlt
      unfold PicoStr.new
      cases hto : st.to_id s with
      | some j => exact ⟨(j, st), rfl⟩
      | none => exact ⟨(⟨st.from_id.length⟩, st.insert s), by rw [if_pos hlt]⟩
  constructor
  · intro st s hmiss hge
    rw [PicoStr.static_eq_new]
    exact ⟨(hcase st s).1 hmiss hge, (hcase st s).1 hmiss hge⟩
  · intro st s hlt
    rw [PicoStr.static_eq_new]
    exact ⟨(hcase st s).2 hlt, (hcase st s).2 hlt⟩

/-- C7 counterexample to the claim as stated: with the identity space
exhausted (`2 ^ 32` interned strings — a consistent state), an intern
call for the already-interned string `"a"` does **not** abort: it
returns the existing identity `0` and leaves the state unchanged,
because the read-lock lookup happens before the capacity check. -/
theorem C7_id_exhaustion_fatal_cex :
    bigInterner.Valid ∧ 2 ^ 32 ≤ bigInterner.from_id.length ∧
    PicoStr.new "a" bigInterner = .ok (⟨0⟩, bigInterner) := by
  refine ⟨bigInterner_valid, ?_, ?_⟩
  · simp [bigInterner, bigFromId]
  · have h : bigInterner.to_id "a" = some ⟨0⟩ := by decide
    unfold PicoStr.new
    rw [h]

/-- Witness for C7: a miss at the exhausted interner panics, while a miss
at the empty interner allocates normally. -/
theorem C7_id_exhaustion_fatal_witness :
    PicoStr.new "b" bigInterner = .error "out of string ids" ∧
    PicoStr.new "" Interner.empty ≠ .error "out of string ids" := by
  constructor
  · exact (C7_id_exhaustion_fatal.1 bigInterner "b" (by decide)
      (by simp [bigInterner, bigFromId])).1
  · obtain ⟨p, hp⟩ := (C7_id_exhaustion_fatal.2 Interner.empty "" (by decide)).1
    rw [hp]
    exact fun h => Except.noConfusion h

/-! ### Claims C8, C9, C10: instruction catalog and dispatch -/

/-- C8: for every catalog opcode (every variant other than the
macro-added `Flow`), `Run for Opcode` first advances the instruction
pointer, then dispatches the opcode's semantic handler, passing it
exactly the sub-slices of the instruction and span arrays that start at
the new instruction-pointer position (in bounds, so Rust's slicing would
not panic), together with the same span, the advanced vm, and the engine
and iterator unchanged. -/
theorem C8_dispatch_advances_then_runs (handler : Handler) (op : Opcode)
    (instructions : List Opcode) (spans : List Span) (span : Span) (vm : Vm)
    (engine : Engine) (iterator : Option (List Value))
    (hop : op ≠ Opcode.Flow)
    (_hinstr : vm.instruction_pointer + 1 ≤ instructions.length)
    (_hspans : vm.instruction_pointer + 1 ≤ spans.length) :
    Opcode.runWith handler op instructions spans span vm engine iterator =
      handler op (instructions.drop (vm.instruction_pointer + 1))
        (spans.drop (vm.instruction_pointer + 1)) span vm.next engine iterator ∧
    vm.next.instruction_pointer = vm.instruction_pointer + 1 ∧
    vm.next.slots = vm.slots := by
  refine ⟨?_, rfl, rfl⟩
  cases op
  case Flow => exact absurd rfl hop
  all_goals rfl

/-- Witness for C8 at a concrete `Add` instruction, a two-instruction
program and a VM whose instruction pointer is `0`. -/
theorem C8_dispatch_advances_then_runs_witness :
    Opcode.runWith trivialHandler (.Add ⟨.slot 0, .slot 1, ⟨2⟩⟩)
        [.Flow, .Flow] [⟨0⟩, ⟨1⟩] ⟨5⟩ ⟨0, []⟩ ⟨7⟩ none =
      trivialHandler (.Add ⟨.slot 0, .slot 1, ⟨2⟩⟩)
        ([.Flow, .Flow].drop ((0 : Nat) + 1)) ([(⟨0⟩ : Span), ⟨1⟩].drop ((0 : Nat) + 1))
        ⟨5⟩ (Vm.next ⟨0, []⟩) ⟨7⟩ none ∧
    (Vm.next ⟨0, []⟩).instruction_pointer = (0 : Nat) + 1 ∧
    (Vm.next ⟨0, []⟩).slots = ([] : List Value) :=
  C8_dispatch_advances_then_runs trivialHandler (.Add ⟨.slot 0, .slot 1, ⟨2⟩⟩)
    [.Flow, .Flow] [⟨0⟩, ⟨1⟩] ⟨5⟩ ⟨0, []⟩ ⟨7⟩ none
    (fun h => Opcode.noConfusion h) (by decide) (by decide)

/-- C9 counterexample: a concrete `Destructure` instruction carries no
span operand at all — its operand record holds only the value operand
and the pattern id, so there is no separately tracked target-vs-value
span on the instruction. -/
theorem C9_destructure_carries_no_span :
    Opcode.spanOperands (.Destructure { value := .slot 0, out := ⟨0⟩ }) = [] :=
  rfl

/-- C9 (amended): each compound-assignment variant (`AddAssign`,
`SubAssign`, `MulAssign`, `DivAssign`) carries a dedicated `lhs_span`
operand — genuinely separate storage, so instructions differing only in
`lhs_span` are distinct — while `Destructure` carries no span operand at
all (its target spans, if any, live in the pattern pool, not on the
instruction). -/
theorem C9_compound_assign_lhs_span (a : AddAssign) (b : SubAssign) (c : MulAssign)
    (d : DivAssign) (dd : Destructure) (s₁ s₂ : SpanId) (hne : s₁ ≠ s₂) :
    Opcode.spanOperands (.AddAssign a) = [a.lhs_span] ∧
    Opcode.spanOperands (.SubAssign b) = [b.lhs_span] ∧
    Opcode.spanOperands (.MulAssign c) = [c.lhs_span] ∧
    Opcode.spanOperands (.DivAssign d) = [d.lhs_span] ∧
    Opcode.spanOperands (.Destructure dd) = [] ∧
    ({ a with lhs_span := s₁ } : AddAssign) ≠ { a with lhs_span := s₂ } := by
  refine ⟨rfl, rfl, rfl, rfl, rfl, ?_⟩
  intro h
  exact hne (congrArg AddAssign.lhs_span h)

/-- Witness for C9 (amended) at concrete instructions and two distinct
span ids. -/
theorem C9_compound_assign_lhs_span_witness :
    Opcode.spanOperands (.AddAssign ⟨.slot 0, ⟨3⟩, ⟨0⟩⟩) = [(⟨3⟩ : SpanId)] ∧
    Opcode.spanOperands (.SubAssign ⟨.slot 0, ⟨4⟩, ⟨0⟩⟩) = [(⟨4⟩ : SpanId)] ∧
    Opcode.spanOperands (.MulAssign ⟨.slot 0, ⟨5⟩, ⟨0⟩⟩) = [(⟨5⟩ : SpanId)] ∧
    Opcode.spanOperands (.DivAssign ⟨.slot 0, ⟨6⟩, ⟨0⟩⟩) = [(⟨6⟩ : SpanId)] ∧
    Opcode.spanOperands (.Destructure ⟨.slot 1, ⟨2⟩⟩) = [] ∧
    ({ value := .slot 0, lhs_span := ⟨0⟩, out := ⟨0⟩ } : AddAssign) ≠
      { value := .slot 0, lhs_span := ⟨1⟩, out := ⟨0⟩ } :=
  C9_compound_assign_lhs_span ⟨.slot 0, ⟨3⟩, ⟨0⟩⟩ ⟨.slot 0, ⟨4⟩, ⟨0⟩⟩
    ⟨.slot 0, ⟨5⟩, ⟨0⟩⟩ ⟨.slot 0, ⟨6⟩, ⟨0⟩⟩ ⟨.slot 1, ⟨2⟩⟩ ⟨0⟩ ⟨1⟩ (by decide)

/-- C10: the `Opcode` enum's extra `Flow` variant (discriminant `0`, not
part of the spec's catalog) is a no-op apart from the instruction-pointer
advance: running it advances the instruction pointer by one step, leaves
the slots, engine and iterator untouched, returns success — and invokes
no instruction handler (the result is the same for every handler
family). -/
theorem C10_flow_is_noop (h h' : Handler) (instructions : List Opcode)
    (spans : List Span) (span : Span) (vm : Vm) (engine : Engine)
    (iterator : Option (List Value)) :
    Opcode.runWith h .Flow instructions spans span vm engine iterator =
      (Except.ok (), { vm with instruction_pointer := vm.instruction_pointer + 1 },
        engine, iterator) ∧
    Opcode.runWith h .Flow instructions spans span vm engine iterator =
      Opcode.runWith h' .Flow instructions spans span vm engine iterator ∧
    Opcode.discriminant .Flow = 0 :=
  ⟨rfl, rfl, rfl⟩

end Typst
